import Mathlib

set_option autoImplicit false

/-!
Verification of the device-communication core of the wastetrack edge service.

Each Lean definition is a shallow embedding of one Python function of the
repository; the theorems at the end of the file settle the specification
claims against these definitions.  Timestamps (`datetime.now()`, file mtimes)
are modelled as `Nat` values passed in explicitly; the outcome of OS-level
effects (serial writes, broker sends, repository lookups) is modelled as an
explicit environment argument.
-/

namespace WasteTrackEdge

/-! ## Device model — `src/shared/infrastructure/bluetooth/bluetooth_device.py` -/

/-- Source: `BluetoothDevice` dataclass: identity, transport address and runtime state.
Defaults mirror the dataclass defaults (`is_online=False`, `last_seen=None`,
`consecutive_failures=0`). -/
structure BluetoothDevice where
  device_identifier : String
  port : String
  is_online : Bool := false
  last_seen : Option Nat := none
  consecutive_failures : Nat := 0
deriving DecidableEq, Repr

/-- Source: `BluetoothDevice.mark_online`: sets `is_online = True`,
`last_seen = datetime.now()` (the explicit `now` argument) and resets
`consecutive_failures` to 0. -/
def BluetoothDevice.mark_online (d : BluetoothDevice) (now : Nat) : BluetoothDevice :=
  { d with is_online := true, last_seen := some now, consecutive_failures := 0 }

/-- Source: `BluetoothDevice.mark_offline`: sets `is_online = False` and increments
`consecutive_failures`. -/
def BluetoothDevice.mark_offline (d : BluetoothDevice) : BluetoothDevice :=
  { d with is_online := false, consecutive_failures := d.consecutive_failures + 1 }

/-- The documented device invariant: an online device has no recorded
consecutive failures. -/
def deviceInvariant (d : BluetoothDevice) : Prop :=
  d.is_online = true → d.consecutive_failures = 0

instance (d : BluetoothDevice) : Decidable (deviceInvariant d) := by
  unfold deviceInvariant; infer_instance

/-! ## Config loader — `src/shared/infrastructure/bluetooth/device_config_loader.py`

The JSON config file is modelled as a `ConfigFile`: either missing, present
but failing JSON parsing, or parsed into a list of entries.  Each declared
entry carries the optional `deviceIdentifier` and `port` fields
(`device_data.get(...)` returns `None` when absent); Python falsiness of an
empty string is modelled explicitly. -/

/-- One element of the `devices` array of `bluetooth_devices.json`. -/
structure DeviceEntry where
  deviceIdentifier : Option String
  port : Option String
deriving DecidableEq, Repr

/-- The loader skips entries failing `if not device_identifier or not port`:
both fields must be present and non-empty. -/
def validEntry (e : DeviceEntry) : Option (String × String) :=
  match e.deviceIdentifier, e.port with
  | some i, some p => if i = "" ∨ p = "" then none else some (i, p)
  | _, _ => none

/-- One element of the `devices` array as `json.load` hands it to the loop:
a JSON object element is read with `device_data.get(...)`, while any
non-object element (number, string, array, ...) raises `AttributeError` at
`device_data.get('deviceIdentifier')`, aborting the loop mid-merge. -/
inductive ConfigElem where
  | dict (e : DeviceEntry)
  | nonDict
deriving DecidableEq, Repr

/-- The state of the configuration source as seen by one `load_devices` call:
missing file, file failing JSON parsing, or a parsed `devices` array. -/
inductive ConfigFile where
  | missing
  | malformed (mtime : Nat)
  | valid (mtime : Nat) (entries : List ConfigElem)
deriving DecidableEq, Repr

/-- Source: `self.devices: Dict[str, BluetoothDevice]` with `self.last_modified`.
Python dicts preserve insertion order, so the dict is an association list. -/
structure LoaderState where
  devices : List (String × BluetoothDevice)
  last_modified : Nat
deriving DecidableEq, Repr

/-- Python dict lookup on an association list (first match; dict keys are
unique so first and last occurrence coincide on well-formed states). -/
def dictGet {α : Type} : List (String × α) → String → Option α
  | [], _ => none
  | p :: l, k => if p.1 = k then some p.2 else dictGet l k

/-- Python dict assignment `d[k] = v`: replaces in place when the key is
present (keeping its insertion position), otherwise appends. -/
def assocInsert {α : Type} (k : String) (v : α) : List (String × α) → List (String × α)
  | [] => [(k, v)]
  | (k', v') :: rest => if k' = k then (k, v) :: rest else (k', v') :: assocInsert k v rest

/-- Source: `existing_devices = {d.device_identifier: d for d in self.devices.values()}` -/
def buildExisting (ds : List BluetoothDevice) : List (String × BluetoothDevice) :=
  ds.foldl (fun acc d => assocInsert d.device_identifier d acc) []

/-- The body's device choice for one valid entry: an identifier already in
`existing_devices` keeps its cached device object with only `port` updated;
otherwise a fresh `BluetoothDevice(device_identifier=..., port=...)`. -/
def mergeDevice (existing : List (String × BluetoothDevice)) (ident p : String) :
    BluetoothDevice :=
  match dictGet existing ident with
  | some d => { d with port := p }
  | none => { device_identifier := ident, port := p }

/-- The `for device_data in devices_data:` loop of `load_devices`: skip invalid
entries, choose each valid entry's device with `mergeDevice`, and accumulate
into `new_devices` with dict-assignment semantics. -/
def mergeEntries (existing : List (String × BluetoothDevice)) :
    List DeviceEntry → List (String × BluetoothDevice) → List (String × BluetoothDevice)
  | [], acc => acc
  | e :: rest, acc =>
    match validEntry e with
    | none => mergeEntries existing rest acc
    | some (ident, p) =>
      mergeEntries existing rest (assocInsert ident (mergeDevice existing ident p) acc)

/-- Source: `list(self.devices.values())` -/
def LoaderState.values (s : LoaderState) : List BluetoothDevice :=
  s.devices.map (·.2)

/-- The in-place mutation `device.port = port` of a cached device reached
through `existing_devices`: the objects in that dict are the very objects held
by `self.devices`, so the entry of `self.devices` holding the device with this
identifier gets its port overwritten.  (Dict keying makes identifiers unique
in well-formed states, so exactly one entry is affected.) -/
def applyPortUpdate (ident p : String) (devices : List (String × BluetoothDevice)) :
    List (String × BluetoothDevice) :=
  devices.map (fun q =>
    if q.2.device_identifier = ident then (q.1, { q.2 with port := p }) else q)

/-- The `for device_data in devices_data:` loop with the aliasing made
explicit.  `acc` is `new_devices`; `old` is `self.devices`, whose cached
objects receive the in-place `device.port = port` mutation whenever an
identifier is already present; a non-dict element raises `AttributeError`,
and the `.error` result carries `self.devices` as it stands at the raise,
with the mutations applied so far. -/
def mergeLoop (existing : List (String × BluetoothDevice)) :
    List ConfigElem → List (String × BluetoothDevice) →
    List (String × BluetoothDevice) →
    Except (List (String × BluetoothDevice))
      (List (String × BluetoothDevice) × List (String × BluetoothDevice))
  | [], acc, old => .ok (acc, old)
  | .nonDict :: _, _, old => .error old
  | .dict e :: rest, acc, old =>
    match validEntry e with
    | none => mergeLoop existing rest acc old
    | some (ident, p) =>
      match dictGet existing ident with
      | some _ =>
        mergeLoop existing rest (assocInsert ident (mergeDevice existing ident p) acc)
          (applyPortUpdate ident p old)
      | none =>
        mergeLoop existing rest (assocInsert ident (mergeDevice existing ident p) acc) old

/-- The body of the `try:` block of `DeviceConfigLoader.load_devices`: the
`exists()` check returns the cached set without raising; the mtime check skips
re-parsing; `json.load` raises `JSONDecodeError` on a malformed file before
any device is touched; the merge loop can raise `AttributeError` mid-way.  A
`.error` result stands for the exception escaping the body and carries the
loader state as it stands at the raise (`self.devices = new_devices` and the
mtime update happen only after the whole loop succeeds). -/
def load_devices_body (s : LoaderState) :
    ConfigFile → Bool →
    Except (LoaderState × String) (LoaderState × List BluetoothDevice)
  | .missing, _ => .ok (s, s.values)
  | .malformed m, force =>
    if force = false ∧ m = s.last_modified then .ok (s, s.values)
    else .error (s, "JSONDecodeError")
  | .valid m entries, force =>
    if force = false ∧ m = s.last_modified then .ok (s, s.values)
    else
      match mergeLoop (buildExisting s.values) entries [] s.devices with
      | .ok (merged, _) =>
        .ok ({ devices := merged, last_modified := m }, merged.map (·.2))
      | .error mutated => .error ({ s with devices := mutated }, "AttributeError")

/-- Source: `DeviceConfigLoader.load_devices`: the surrounding
`except json.JSONDecodeError` / `except Exception` handlers log and return
`list(self.devices.values())` — the cached dict as it stands when the
exception was raised. -/
def load_devices (s : LoaderState) (file : ConfigFile) (force : Bool) :
    LoaderState × List BluetoothDevice :=
  match load_devices_body s file force with
  | .ok r => r
  | .error q => (q.1, q.1.values)

/-- Well-formedness of the loader dict: every binding's key is the device's
own identifier and keys are unique.  Holds for every state `load_devices`
produces; it is how Python dict keying works. -/
def LoaderState.wf (s : LoaderState) : Prop :=
  (∀ p ∈ s.devices, p.1 = p.2.device_identifier) ∧ (s.devices.map (·.1)).Nodup

instance (s : LoaderState) : Decidable s.wf := by
  unfold LoaderState.wf; infer_instance

/-- The port of the last valid entry carrying identifier `k` (Python dict
assignment lets later duplicate entries win). -/
def findLastValid (k : String) : List DeviceEntry → Option String
  | [] => none
  | e :: rest =>
    match findLastValid k rest with
    | some p => some p
    | none =>
      match validEntry e with
      | some (i, p) => if i = k then some p else none
      | none => none

/-! ## Device status tracker —
`src/containermonitoring/application/services/bluetooth_polling_service.py`

`resolves` models whether `device_service.get_device_by_identifier` finds the
device's backing identity record (events are published only then). -/

/-- A device status event published by `DeviceStatusPublisher`. -/
inductive StatusEvent where
  | online (device_identifier : String)
  | offline (device_identifier : String) (consecutive_failures : Nat)
deriving DecidableEq, Repr

/-- Source: `BluetoothPollingService._handle_device_online`: remember whether the
device was offline, mark it online, and publish an online event only on the
offline→online edge and only when the identity record resolves. -/
def handle_device_online (resolves : Bool) (now : Nat) (d : BluetoothDevice) :
    BluetoothDevice × List StatusEvent :=
  let was_offline := !d.is_online
  let d' := d.mark_online now
  (d', if was_offline && resolves then [.online d.device_identifier] else [])

/-- Source: `BluetoothPollingService._handle_device_offline`: mark offline, publish an
offline event (with the incremented failure count) only on the online→offline
edge and only when the identity record resolves. -/
def handle_device_offline (resolves : Bool) (d : BluetoothDevice) :
    BluetoothDevice × List StatusEvent :=
  let was_online := d.is_online
  let d' := d.mark_offline
  (d', if was_online && resolves then
         [.offline d.device_identifier d'.consecutive_failures] else [])

/-- Outcome of one `poll_device` call on a device: every failure path (no
lease, connect failure, ping failure, no reading data, exception) calls
`_handle_device_offline`; a fully processed reading calls
`_handle_device_online`; a reading whose processing returns `False` calls
neither handler. -/
inductive PollOutcome where
  | success
  | failure
  | processFailed
deriving DecidableEq, Repr

/-- State change and event emission of one `poll_device` call. -/
def poll_step (resolves : Bool) (now : Nat) (d : BluetoothDevice) :
    PollOutcome → BluetoothDevice × List StatusEvent
  | .success => handle_device_online resolves now d
  | .failure => handle_device_offline resolves d
  | .processFailed => (d, [])

/-- A sequence of polling cycles on one device, collecting the emitted
status events in order. -/
def run_polls (resolves : Bool) (now : Nat) (d : BluetoothDevice) :
    List PollOutcome → BluetoothDevice × List StatusEvent
  | [] => (d, [])
  | o :: rest =>
    let r := poll_step resolves now d o
    let r' := run_polls resolves now r.1 rest
    (r'.1, r.2 ++ r'.2)

/-! ## MQTT wildcard matcher and handler lookup —
`src/shared/infrastructure/mqtt/connection_manager.py` -/

/-- Python `str.split('/')` on the character list. -/
def splitChars : List Char → List (List Char)
  | [] => [[]]
  | c :: rest =>
    if c == '/' then [] :: splitChars rest
    else
      match splitChars rest with
      | [] => [[c]]
      | g :: gs => (c :: g) :: gs

/-- Source: `pattern.split('/')` / `topic.split('/')`. -/
def splitLevels (s : String) : List String :=
  (splitChars s.toList).map (fun l => String.mk l)

/-- One comparison of the generator: `p == '+' or p == t`. -/
def plusMatch (p t : String) : Bool := p == "+" || p == t

/-- Source: `all(p == '+' or p == t for p, t in zip(ps, ts))`: Python `zip` truncates
at the shorter list, and `all` of an empty generator is `True`. -/
def zipAllMatch : List String → List String → Bool
  | [], _ => true
  | _ :: _, [] => true
  | p :: ps, t :: ts => plusMatch p t && zipAllMatch ps ts

/-- Source: `MqttConnectionManager._topic_matches` on the split level lists: a pattern
whose last level is `#` compares only its other levels against the zipped
topic levels; otherwise the level counts must be equal and levels are compared
pairwise. -/
def topic_matches_core (pp tp : List String) : Bool :=
  if pp.contains "#" && (pp.getLast? == some "#") then
    zipAllMatch pp.dropLast tp
  else
    pp.length == tp.length && zipAllMatch pp tp

/-- Source: `MqttConnectionManager._topic_matches`. -/
def topic_matches (pattern topic : String) : Bool :=
  topic_matches_core (splitLevels pattern) (splitLevels topic)

/-- Modelled from the spec: "`+` matches exactly one topic level and a
trailing `#` matches any number of trailing levels" — under these words a
pattern `p₁/…/pₖ/#` requires the topic to have at least `k` levels, each
matching the corresponding pattern level.  Stated only to compare with
`topic_matches_core`, which is translated from the source. -/
def spec_topic_matches_core (pp tp : List String) : Bool :=
  if pp.getLast? == some "#" then
    decide (pp.dropLast.length ≤ tp.length) && zipAllMatch pp.dropLast tp
  else
    pp.length == tp.length && zipAllMatch pp tp

/-- The spec-words matcher on whole topic strings. -/
def spec_topic_matches (pattern topic : String) : Bool :=
  spec_topic_matches_core (splitLevels pattern) (splitLevels topic)

/-- Equal level count and pairwise match (used to phrase the amended
semantics of truncated `#` comparison). -/
def levelsAgree (pp tp : List String) : Bool :=
  pp.length == tp.length && zipAllMatch pp tp

/-- Source: `MqttConnectionManager._find_handler`: exact dict lookup first, then the
first registered pattern whose wildcard semantics match.  Handlers are
identified by the `Nat` they were registered with. -/
def find_handler (handlers : List (String × Nat)) (topic : String) : Option Nat :=
  match dictGet handlers topic with
  | some h => some h
  | none => (handlers.find? (fun e => topic_matches e.1 topic)).map (·.2)

/-! ## JSON serialization of serial envelopes and MQTT payloads

`json.dumps` with Python's default separators, on flat string-keyed objects
of scalar values (the shape every envelope of this codebase has). -/

/-- A scalar JSON value. -/
inductive JValue where
  | jstr (s : String)
  | jnum (n : Int)
  | jbool (b : Bool)
  | jnull
deriving DecidableEq, Repr

def dumpJValue : JValue → String
  | .jstr s => "\"" ++ s ++ "\""
  | .jnum n => toString n
  | .jbool b => if b then "true" else "false"
  | .jnull => "null"

def dumpPairs : List (String × JValue) → String
  | [] => ""
  | [(k, v)] => "\"" ++ k ++ "\": " ++ dumpJValue v
  | (k, v) :: rest => "\"" ++ k ++ "\": " ++ dumpJValue v ++ ", " ++ dumpPairs rest

/-- Source: `json.dumps` of a flat dict. -/
def dumpObj (fs : List (String × JValue)) : String :=
  "\x7b" ++ dumpPairs fs ++ "\x7d"

/-- The serial protocol envelope `{"topic": str, "data": obj}`. -/
structure Envelope where
  topic : String
  data : List (String × JValue)
deriving DecidableEq, Repr

/-- Source: `json.dumps(message)` for an envelope dict built as
`{"topic": ..., "data": {...}}`. -/
def jsonDumpsEnvelope (m : Envelope) : String :=
  "\x7b\"topic\": " ++ dumpJValue (.jstr m.topic) ++ ", \"data\": " ++ dumpObj m.data ++ "\x7d"

/-! ## Serial client and command sender —
`src/shared/infrastructure/bluetooth/serial_client.py`,
`src/shared/infrastructure/bluetooth/command_sender.py` -/

/-- Observable state of a `SerialClient`: its `is_connected` flag plus the
environment's verdict on the OS-level write (`False` stands for
`SerialTimeoutException` or any other write error). -/
structure SerialState where
  is_connected : Bool
  write_ok : Bool
deriving DecidableEq, Repr

/-- Source: `SerialClient.send_message`: bail out when not connected (no write);
otherwise write `json.dumps(message) + '\n'` to the connection exactly once
and report whether the write succeeded.  Second component: the UTF-8 strings
handed to `connection.write`. -/
def send_message (st : SerialState) (m : Envelope) : Bool × List String :=
  if st.is_connected then (st.write_ok, [jsonDumpsEnvelope m ++ "\n"])
  else (false, [])

/-- The threshold envelope `{"topic": 'config/threshold', "data": {"value": v}}`.
Python's float threshold is modelled as an integer: the range check
`0 <= threshold <= 100` and the claims exercise only integral values. -/
def threshold_message (threshold : Int) : Envelope :=
  { topic := "config/threshold", data := [("value", .jnum threshold)] }

/-- Source: `BluetoothCommandSender.set_threshold`: reject a threshold outside
`[0, 100]` before any I/O; otherwise submit the threshold envelope to
`serial_client.send_message` exactly once and return its verdict.  Second
component: the envelopes submitted to the transport. -/
def set_threshold (st : SerialState) (threshold : Int) : Bool × List Envelope :=
  if 0 ≤ threshold ∧ threshold ≤ 100 then
    ((send_message st (threshold_message threshold)).1, [threshold_message threshold])
  else (false, [])

/-- Source: `SerialClientAdapter._serialize_message`: `json.dumps(message)` —
no trailing newline is appended on this path. -/
def adapter_serialize_message (m : Envelope) : String := jsonDumpsEnvelope m

/-- Source: `SerialClientAdapter._send_raw` over a raw pyserial handle (the production
wiring: the wrapped client has a `write` method): the UTF-8 strings written. -/
def adapter_send_raw_bytes (m : Envelope) : List String := [adapter_serialize_message m]

/-! ## MQTT publish — `MqttConnectionManager.publish` -/

/-- The connection manager's `connected` flag plus the environment's verdict
on `client.publish` (`result.rc == MQTT_ERR_SUCCESS`). -/
structure MqttState where
  connected : Bool
  publish_rc_ok : Bool
deriving DecidableEq, Repr

/-- One call to the paho client's `publish`. -/
structure PublishCall where
  topic : String
  payload_str : String
  retain : Bool
deriving DecidableEq, Repr

/-- Source: `MqttConnectionManager.publish`: return `False` at once when the
`connected` flag is down (no serialization, no send); otherwise serialize the
payload with `json.dumps`, call `client.publish` once, and return whether the
local send reported success.  Second component: the `client.publish` calls
made. -/
def mqtt_publish (st : MqttState) (topic : String) (payload : List (String × JValue))
    (retain : Bool) : Bool × List PublishCall :=
  if st.connected then
    let payload_str := dumpObj payload
    (st.publish_rc_ok, [{ topic := topic, payload_str := payload_str, retain := retain }])
  else (false, [])

/-! ## Reconnect scheduling —
`MqttConnectionManager._schedule_reconnect` / `_on_connect` /
`_on_disconnect` / `connect` -/

/-- The two connection flags of `MqttConnectionManager`. -/
structure ConnState where
  connected : Bool
  reconnecting : Bool
deriving DecidableEq, Repr

/-- Source: `_schedule_reconnect`: return at once when `reconnecting` is already set;
otherwise set it and start one background reconnect timer.  Second component:
whether a new reconnect attempt was scheduled. -/
def schedule_reconnect (s : ConnState) : ConnState × Bool :=
  if s.reconnecting then (s, false)
  else ({ s with reconnecting := true }, true)

/-- Source: `connect()`: `client.connect` may raise; on exception
`_schedule_reconnect` runs.  A non-raising call changes no flags —
`connected` is set only by the asynchronous `_on_connect` callback. -/
def connect_call (raises : Bool) (s : ConnState) : ConnState × Bool :=
  if raises then schedule_reconnect s else (s, false)

/-- Source: `_on_connect` callback: `rc == 0` sets `connected` and clears
`reconnecting`; any other code clears `connected` and falls into
`_schedule_reconnect`. -/
def on_connect (rc : Nat) (s : ConnState) : ConnState × Bool :=
  if rc = 0 then ({ connected := true, reconnecting := false }, false)
  else schedule_reconnect { s with connected := false }

/-- Source: `_on_disconnect` callback: clears `connected`; an unexpected disconnect
(`rc != 0`) falls into `_schedule_reconnect`. -/
def on_disconnect (rc : Nat) (s : ConnState) : ConnState × Bool :=
  if rc ≠ 0 then schedule_reconnect { s with connected := false }
  else ({ s with connected := false }, false)

/-- The body of the scheduled reconnect timer: after the delay, call
`connect()` only if still not connected.  Note it never clears
`reconnecting`. -/
def reconnect_timer (connectRaises : Bool) (s : ConnState) : ConnState × Bool :=
  if s.connected then (s, false) else connect_call connectRaises s

/-- The events that touch the two connection flags. -/
inductive ConnEvent where
  | connectCall (raises : Bool)
  | onConnect (rc : Nat)
  | onDisconnect (rc : Nat)
  | timerFires (connectRaises : Bool)
deriving DecidableEq, Repr

def conn_step (s : ConnState) : ConnEvent → ConnState × Bool
  | .connectCall r => connect_call r s
  | .onConnect rc => on_connect rc s
  | .onDisconnect rc => on_disconnect rc s
  | .timerFires r => reconnect_timer r s

/-- Run a sequence of events, counting how many new reconnect attempts get
scheduled along the way. -/
def conn_run (s : ConnState) : List ConnEvent → ConnState × Nat
  | [] => (s, 0)
  | e :: rest =>
    let r := conn_step s e
    let r' := conn_run r.1 rest
    (r'.1, (if r.2 then 1 else 0) + r'.2)

/-! ## Polling worker command queue —
`src/containermonitoring/application/workers/bluetooth_polling_worker.py` -/

/-- Source: `prefixChars p l` decides whether `p` is an initial segment of `l`. -/
def prefixChars : List Char → List Char → Bool
  | [], _ => true
  | _ :: _, [] => false
  | a :: ps, b :: ts => a == b && prefixChars ps ts

def containsCharsAux (sub : List Char) : List Char → Bool
  | [] => prefixChars sub []
  | c :: rest => prefixChars sub (c :: rest) || containsCharsAux sub rest

/-- Python's `sub in hay` substring test. -/
def strContains (hay sub : String) : Bool := containsCharsAux sub.toList hay.toList

/-- Source: `d_identifier` extraction in `_process_command_queue`: on a
`BluetoothDevice` only the `device_identifier` attribute exists, and Python
`or` treats the empty string as missing. -/
def device_key (d : BluetoothDevice) : Option String :=
  if d.device_identifier = "" then none else some d.device_identifier

/-- The comparison `str(d_identifier) == str(key) or str(key) in
str(d_identifier) or str(d_identifier) in str(key)`. -/
def key_matches (dIdent key : String) : Bool :=
  dIdent == key || strContains dIdent key || strContains key dIdent

/-- Per-command resolution of `_process_command_queue`: look the queued device
id up in the device repository (`repo`; `none` covers an exception, a missing
row and a row without identifier fields), then scan the loaded device list —
against the repository identifier when available, else against the queued key
directly — accepting exact or substring matches, first hit wins. -/
def resolve_command (repo : String → Option String) (devices : List BluetoothDevice)
    (queued_device_id : String) : Option BluetoothDevice :=
  let key := match repo queued_device_id with
    | some dbIdent => dbIdent
    | none => queued_device_id
  devices.find? (fun d =>
    match device_key d with
    | none => false
    | some di => key_matches di key)

/-- What became of one dequeued command. -/
inductive CmdAction where
  | sent (queued_device_id : String) (threshold : Int) (target : String) (ok : Bool)
  | dropped (queued_device_id : String) (threshold : Int)
deriving DecidableEq, Repr

/-- Source: `BluetoothPollingWorker._process_command_queue`: the
`while True: get(timeout) / except queue.Empty: break` drain loop.  Commands
are consumed in FIFO order; an unresolved command is logged and dropped; a
resolved one triggers one `send_threshold_config` call whose verdict `sendOk`
the environment supplies (`False` also covers a raised and caught exception).
Second component: the queue contents left behind by the loop. -/
def process_command_queue (repo : String → Option String) (sendOk : String → Int → Bool)
    (devices : List BluetoothDevice) :
    List (String × Int) → List CmdAction × List (String × Int)
  | [] => ([], [])
  | (qid, t) :: rest =>
    let act : CmdAction :=
      match resolve_command repo devices qid with
      | none => .dropped qid t
      | some d => .sent qid t d.device_identifier (sendOk d.device_identifier t)
    let r := process_command_queue repo sendOk devices rest
    (act :: r.1, r.2)

/-- One entry of a polling cycle's action trace. -/
inductive CycleAction where
  | command (a : CmdAction)
  | polled (device_identifier : String)
deriving DecidableEq, Repr

/-- One iteration of `BluetoothPollingWorker._run_loop` after the optional hot
reload: drain the command queue completely, then poll every device of the
current snapshot sequentially.  Returns the action trace in program order and
the queue left for the next cycle. -/
def run_cycle (repo : String → Option String) (sendOk : String → Int → Bool)
    (devices : List BluetoothDevice) (cmds : List (String × Int)) :
    List CycleAction × List (String × Int) :=
  let r := process_command_queue repo sendOk devices cmds
  (r.1.map .command ++ devices.map (fun d => .polled d.device_identifier), r.2)

/-! ## Lemmas about the association-list dictionary and the config merge -/

lemma dictGet_assocInsert {α : Type} (k : String) (v : α) (l : List (String × α))
    (k' : String) :
    dictGet (assocInsert k v l) k' = if k' = k then some v else dictGet l k' := by
  induction l with
  | nil =>
    simp only [assocInsert, dictGet]
    by_cases h : k' = k
    · simp [h]
    · rw [if_neg fun hh => h hh.symm, if_neg h]
  | cons p rest ih =>
    by_cases hpk : p.1 = k
    · simp only [assocInsert, hpk, if_pos]
      by_cases h : k' = k
      · simp [dictGet, h]
      · have hk1 : ¬k = k' := fun hh => h hh.symm
        have hp1 : ¬p.1 = k' := by rw [hpk]; exact hk1
        simp [dictGet, h, hk1, hp1]
    · simp only [assocInsert, hpk, if_neg, not_false_iff]
      by_cases hp1 : p.1 = k'
      · have h : ¬k' = k := by rw [← hp1]; exact fun hh => hpk hh
        simp [dictGet, hp1, h, ih]
      · by_cases h : k' = k
        · subst h
          simp [dictGet, hp1, ih]
        · simp [dictGet, hp1, h, ih]

lemma mem_assocInsert {α : Type} {q : String × α} {k : String} {v : α}
    {l : List (String × α)} (h : q ∈ assocInsert k v l) : q = (k, v) ∨ q ∈ l := by
  induction l with
  | nil => simpa [assocInsert] using h
  | cons p rest ih =>
    by_cases hpk : p.1 = k
    · simp only [assocInsert, hpk, if_pos] at h
      rcases List.mem_cons.mp h with h | h
      · exact Or.inl h
      · exact Or.inr (List.mem_cons_of_mem _ h)
    · simp only [assocInsert, hpk, if_neg, not_false_iff] at h
      rcases List.mem_cons.mp h with h | h
      · exact Or.inr (by simp [h])
      · rcases ih h with h' | h'
        · exact Or.inl h'
        · exact Or.inr (List.mem_cons_of_mem _ h')

lemma dictGet_eq_none_of_not_mem {α : Type} {l : List (String × α)} {k : String}
    (h : k ∉ l.map (·.1)) : dictGet l k = none := by
  induction l with
  | nil => rfl
  | cons p rest ih =>
    simp only [List.map_cons, List.mem_cons] at h
    push_neg at h
    have hp : ¬p.1 = k := fun hh => h.1 hh.symm
    simp [dictGet, hp, ih h.2]

lemma dictGet_mem {α : Type} {l : List (String × α)} {k : String} {v : α}
    (h : dictGet l k = some v) : ∃ q ∈ l, q.2 = v := by
  induction l with
  | nil => simp [dictGet] at h
  | cons p rest ih =>
    by_cases hp : p.1 = k
    · simp only [dictGet, hp, if_pos] at h
      exact ⟨p, List.mem_cons_self _ _, Option.some_injective _ h⟩
    · simp only [dictGet, hp, if_neg, not_false_iff] at h
      obtain ⟨q, hq, hv⟩ := ih h
      exact ⟨q, List.mem_cons_of_mem _ hq, hv⟩

lemma dictGet_append {α : Type} (l₁ l₂ : List (String × α)) (k : String) :
    dictGet (l₁ ++ l₂) k =
      match dictGet l₁ k with
      | some v => some v
      | none => dictGet l₂ k := by
  induction l₁ with
  | nil => simp [dictGet]
  | cons p rest ih =>
    by_cases hp : p.1 = k <;> simp [dictGet, hp, ih]

lemma dictGet_reverse {α : Type} {l : List (String × α)}
    (h : (l.map (·.1)).Nodup) (k : String) : dictGet l.reverse k = dictGet l k := by
  induction l with
  | nil => rfl
  | cons p rest ih =>
    simp only [List.map_cons, List.nodup_cons] at h
    rw [List.reverse_cons, dictGet_append]
    by_cases hp : p.1 = k
    · have : dictGet rest.reverse k = none := by
        apply dictGet_eq_none_of_not_mem
        rw [List.map_reverse, List.mem_reverse]
        rw [hp] at h
        exact h.1
      simp [this, dictGet, hp]
    · rw [ih h.2]
      cases hr : dictGet rest k <;> simp [dictGet, hp, hr]

lemma foldl_assocInsert_get (ds : List BluetoothDevice) (acc : List (String × BluetoothDevice))
    (k : String) :
    dictGet (ds.foldl (fun a d => assocInsert d.device_identifier d a) acc) k =
      match dictGet ((ds.map fun d => (d.device_identifier, d)).reverse) k with
      | some v => some v
      | none => dictGet acc k := by
  induction ds generalizing acc with
  | nil => simp [dictGet]
  | cons d rest ih =>
    simp only [List.foldl_cons, List.map_cons, List.reverse_cons]
    rw [ih, dictGet_append]
    cases hr : dictGet (rest.map fun d => (d.device_identifier, d)).reverse k
    · rw [dictGet_assocInsert]
      by_cases hk : k = d.device_identifier
      · subst hk
        simp [dictGet]
      · have hk2 : ¬d.device_identifier = k := fun hh => hk hh.symm
        simp [dictGet, hk, hk2]
    · rfl

lemma buildExisting_get {ds : List BluetoothDevice}
    (h : (ds.map (·.device_identifier)).Nodup) (k : String) :
    dictGet (buildExisting ds) k = dictGet (ds.map fun d => (d.device_identifier, d)) k := by
  have hkeys : ((ds.map fun d => (d.device_identifier, d)).map (·.1)) =
      ds.map (·.device_identifier) := by
    rw [List.map_map]
    rfl
  rw [buildExisting, foldl_assocInsert_get, dictGet_reverse (by rw [hkeys]; exact h)]
  cases hr : dictGet (ds.map fun d => (d.device_identifier, d)) k <;> rfl

lemma foldl_assocInsert_mem {q : String × BluetoothDevice} :
    ∀ (ds : List BluetoothDevice) (acc : List (String × BluetoothDevice)),
      q ∈ ds.foldl (fun a d => assocInsert d.device_identifier d a) acc →
      q.2 ∈ ds ∨ q ∈ acc
  | [], _, h => Or.inr h
  | d :: rest, acc, h => by
    simp only [List.foldl_cons] at h
    rcases foldl_assocInsert_mem rest (assocInsert d.device_identifier d acc) h with h' | h'
    · exact Or.inl (List.mem_cons_of_mem _ h')
    · rcases mem_assocInsert h' with h3 | h3
      · left
        rw [h3]
        exact List.mem_cons_self _ _
      · exact Or.inr h3

lemma mem_buildExisting {ds : List BluetoothDevice} {q : String × BluetoothDevice}
    (h : q ∈ buildExisting ds) : q.2 ∈ ds := by
  rcases foldl_assocInsert_mem ds [] h with h' | h'
  · exact h'
  · simp at h'

lemma wf_existing_get {s : LoaderState} (h : s.wf) (k : String) :
    dictGet (buildExisting s.values) k = dictGet s.devices k := by
  obtain ⟨hk, hnd⟩ := h
  have hmap : s.values.map (fun d => (d.device_identifier, d)) = s.devices := by
    rw [LoaderState.values, List.map_map]
    conv_rhs => rw [← List.map_id s.devices]
    apply List.map_congr_left
    intro p hp
    have := hk p hp
    simp [Function.comp]
    exact Prod.ext (this.symm) rfl
  have hnd' : (s.values.map (·.device_identifier)).Nodup := by
    have : s.values.map (·.device_identifier) = s.devices.map (·.1) := by
      rw [LoaderState.values, List.map_map]
      apply List.map_congr_left
      intro p hp
      exact (hk p hp).symm
    rw [this]
    exact hnd
  rw [buildExisting_get hnd', hmap]

lemma mergeEntries_get (ex : List (String × BluetoothDevice)) (entries : List DeviceEntry)
    (acc : List (String × BluetoothDevice)) (k : String) :
    dictGet (mergeEntries ex entries acc) k =
      match findLastValid k entries with
      | some p => some (mergeDevice ex k p)
      | none => dictGet acc k := by
  induction entries generalizing acc with
  | nil => simp [mergeEntries, findLastValid]
  | cons e rest ih =>
    cases hv : validEntry e with
    | none =>
      rw [show mergeEntries ex (e :: rest) acc = mergeEntries ex rest acc by
        simp [mergeEntries, hv]]
      rw [ih]
      cases hr : findLastValid k rest <;> simp [findLastValid, hr, hv]
    | some ip =>
      obtain ⟨i, p⟩ := ip
      rw [show mergeEntries ex (e :: rest) acc =
          mergeEntries ex rest (assocInsert i (mergeDevice ex i p) acc) by
        simp [mergeEntries, hv]]
      rw [ih]
      cases hr : findLastValid k rest with
      | some q => simp [findLastValid, hr]
      | none =>
        simp only [findLastValid, hr, hv]
        rw [dictGet_assocInsert]
        by_cases hk : i = k
        · subst hk
          simp
        · have hk2 : ¬k = i := fun hh => hk hh.symm
          simp [hk, hk2]

lemma mergeDevice_invariant (ex : List (String × BluetoothDevice))
    (hex : ∀ q ∈ ex, deviceInvariant q.2) (ident p : String) :
    deviceInvariant (mergeDevice ex ident p) := by
  unfold mergeDevice
  cases hd : dictGet ex ident with
  | none => intro _; rfl
  | some d =>
    obtain ⟨q', hq', hv'⟩ := dictGet_mem hd
    have := hex q' hq'
    rw [hv'] at this
    intro hon
    exact this hon

lemma findLastValid_none_sound {k : String} {entries : List DeviceEntry}
    (h : findLastValid k entries = none) :
    ∀ e ∈ entries, ∀ i p, validEntry e = some (i, p) → i ≠ k := by
  induction entries with
  | nil => intro e he; simp at he
  | cons e rest ih =>
    intro e' he' i p hv hik
    simp only [findLastValid] at h
    cases hr : findLastValid k rest with
    | some q => rw [hr] at h; simp at h
    | none =>
      rw [hr] at h
      rcases List.mem_cons.mp he' with rfl | hmem
      · rw [hv, hik] at h
        simp at h
      · exact ih hr e' hmem i p hv hik

lemma findLastValid_some_mem {k : String} {entries : List DeviceEntry} {p : String}
    (h : findLastValid k entries = some p) :
    ∃ e ∈ entries, validEntry e = some (k, p) := by
  induction entries with
  | nil => simp [findLastValid] at h
  | cons e rest ih =>
    simp only [findLastValid] at h
    cases hr : findLastValid k rest with
    | some q =>
      rw [hr] at h
      obtain ⟨e', he', hv⟩ := ih (hr.trans (by rw [← h]))
      exact ⟨e', List.mem_cons_of_mem _ he', hv⟩
    | none =>
      rw [hr] at h
      cases hv : validEntry e with
      | none => rw [hv] at h; simp at h
      | some ip =>
        obtain ⟨i, q⟩ := ip
        rw [hv] at h
        simp only [Option.some.injEq] at h
        by_cases hik : i = k
        · rw [if_pos hik] at h
          cases h
          exact ⟨e, List.mem_cons_self _ _, by rw [hv, hik]⟩
        · rw [if_neg hik] at h
          cases h

lemma findLastValid_eq_none_iff (k : String) (entries : List DeviceEntry) :
    findLastValid k entries = none ↔
      ∀ e ∈ entries, ∀ i p, validEntry e = some (i, p) → i ≠ k := by
  constructor
  · exact findLastValid_none_sound
  · intro h
    cases hr : findLastValid k entries with
    | none => rfl
    | some p =>
      obtain ⟨e, he, hv⟩ := findLastValid_some_mem hr
      exact absurd rfl (h e he k p hv)

/-- Two device records equal on everything except possibly the port. -/
def sameExceptPort (d d' : BluetoothDevice) : Prop :=
  d'.device_identifier = d.device_identifier ∧ d'.is_online = d.is_online ∧
  d'.last_seen = d.last_seen ∧ d'.consecutive_failures = d.consecutive_failures

/-- Pointwise `sameExceptPort` with identical keys: the two dicts hold the
same identifiers in the same order with the same runtime state, differing at
most in ports. -/
def devicesSameExceptPort :
    List (String × BluetoothDevice) → List (String × BluetoothDevice) → Prop
  | [], [] => True
  | q :: l, q' :: l' => q'.1 = q.1 ∧ sameExceptPort q.2 q'.2 ∧ devicesSameExceptPort l l'
  | _, _ => False

lemma devicesSameExceptPort_refl : ∀ l, devicesSameExceptPort l l
  | [] => trivial
  | _ :: l => ⟨rfl, ⟨rfl, rfl, rfl, rfl⟩, devicesSameExceptPort_refl l⟩

lemma devicesSameExceptPort_apply (ident p : String) :
    ∀ l, devicesSameExceptPort l (applyPortUpdate ident p l)
  | [] => trivial
  | q :: l => by
    simp only [applyPortUpdate, List.map_cons]
    by_cases h : q.2.device_identifier = ident
    · rw [if_pos h]
      exact ⟨rfl, ⟨rfl, rfl, rfl, rfl⟩, devicesSameExceptPort_apply ident p l⟩
    · rw [if_neg h]
      exact ⟨rfl, ⟨rfl, rfl, rfl, rfl⟩, devicesSameExceptPort_apply ident p l⟩

lemma devicesSameExceptPort_trans :
    ∀ (a b c : List (String × BluetoothDevice)),
      devicesSameExceptPort a b → devicesSameExceptPort b c →
      devicesSameExceptPort a c := by
  intro a
  induction a with
  | nil =>
    intro b c hab hbc
    cases b with
    | nil =>
      cases c with
      | nil => trivial
      | cons qc c => exact hbc.elim
    | cons qb b => exact hab.elim
  | cons qa a ih =>
    intro b c hab hbc
    cases b with
    | nil => exact hab.elim
    | cons qb b =>
      cases c with
      | nil => exact hbc.elim
      | cons qc c =>
        obtain ⟨h1, h2, h3⟩ := hab
        obtain ⟨g1, g2, g3⟩ := hbc
        exact ⟨g1.trans h1, ⟨g2.1.trans h2.1, g2.2.1.trans h2.2.1,
          g2.2.2.1.trans h2.2.2.1, g2.2.2.2.trans h2.2.2.2⟩, ih b c h3 g3⟩

lemma applyPortUpdate_invariant {l : List (String × BluetoothDevice)}
    (hinv : ∀ q ∈ l, deviceInvariant q.2) (ident p : String) :
    ∀ q ∈ applyPortUpdate ident p l, deviceInvariant q.2 := by
  intro q hq
  rw [applyPortUpdate] at hq
  obtain ⟨q0, hq0, hq'⟩ := List.mem_map.mp hq
  by_cases h : q0.2.device_identifier = ident
  · rw [if_pos h] at hq'
    rw [← hq']
    intro hon
    exact hinv q0 hq0 hon
  · rw [if_neg h] at hq'
    rw [← hq']
    exact hinv q0 hq0

lemma mergeLoop_dict_ok (ex : List (String × BluetoothDevice)) :
    ∀ (entries : List DeviceEntry) (acc old : List (String × BluetoothDevice)),
      ∃ old', mergeLoop ex (entries.map ConfigElem.dict) acc old =
        .ok (mergeEntries ex entries acc, old')
  | [], acc, old => ⟨old, rfl⟩
  | e :: rest, acc, old => by
    rw [List.map_cons]
    cases hv : validEntry e with
    | none =>
      rw [show mergeLoop ex (ConfigElem.dict e :: rest.map ConfigElem.dict) acc old =
          mergeLoop ex (rest.map ConfigElem.dict) acc old by simp [mergeLoop, hv]]
      rw [show mergeEntries ex (e :: rest) acc = mergeEntries ex rest acc by
        simp [mergeEntries, hv]]
      exact mergeLoop_dict_ok ex rest acc old
    | some ip =>
      obtain ⟨ident, p⟩ := ip
      rw [show mergeEntries ex (e :: rest) acc =
          mergeEntries ex rest (assocInsert ident (mergeDevice ex ident p) acc) by
        simp [mergeEntries, hv]]
      cases hd : dictGet ex ident with
      | some d0 =>
        rw [show mergeLoop ex (ConfigElem.dict e :: rest.map ConfigElem.dict) acc old =
            mergeLoop ex (rest.map ConfigElem.dict)
              (assocInsert ident (mergeDevice ex ident p) acc)
              (applyPortUpdate ident p old) by simp [mergeLoop, hv, hd]]
        exact mergeLoop_dict_ok ex rest _ _
      | none =>
        rw [show mergeLoop ex (ConfigElem.dict e :: rest.map ConfigElem.dict) acc old =
            mergeLoop ex (rest.map ConfigElem.dict)
              (assocInsert ident (mergeDevice ex ident p) acc) old by
          simp [mergeLoop, hv, hd]]
        exact mergeLoop_dict_ok ex rest _ _

lemma mergeLoop_ok_invariant (ex : List (String × BluetoothDevice))
    (hex : ∀ q ∈ ex, deviceInvariant q.2) :
    ∀ (entries : List ConfigElem) (acc old merged old' : List (String × BluetoothDevice)),
      (∀ q ∈ acc, deviceInvariant q.2) →
      mergeLoop ex entries acc old = .ok (merged, old') →
      ∀ q ∈ merged, deviceInvariant q.2
  | [], acc, old, merged, old', hacc, h => by
    rw [show mergeLoop ex [] acc old = .ok (acc, old) from rfl] at h
    injection h with h1
    obtain ⟨h2, _⟩ := Prod.mk.injEq .. ▸ h1
    rw [← h2]
    exact hacc
  | .nonDict :: rest, acc, old, merged, old', hacc, h => by
    exact Except.noConfusion h
  | .dict e :: rest, acc, old, merged, old', hacc, h => by
    have hacc' : ∀ (ident p : String),
        ∀ q ∈ assocInsert ident (mergeDevice ex ident p) acc, deviceInvariant q.2 := by
      intro ident p q hq
      rcases mem_assocInsert hq with hh | hh
      · rw [hh]
        exact mergeDevice_invariant ex hex ident p
      · exact hacc q hh
    cases hv : validEntry e with
    | none =>
      rw [show mergeLoop ex (ConfigElem.dict e :: rest) acc old =
          mergeLoop ex rest acc old by simp [mergeLoop, hv]] at h
      exact mergeLoop_ok_invariant ex hex rest acc old merged old' hacc h
    | some ip =>
      obtain ⟨ident, p⟩ := ip
      cases hd : dictGet ex ident with
      | some d0 =>
        rw [show mergeLoop ex (ConfigElem.dict e :: rest) acc old =
            mergeLoop ex rest (assocInsert ident (mergeDevice ex ident p) acc)
              (applyPortUpdate ident p old) by simp [mergeLoop, hv, hd]] at h
        exact mergeLoop_ok_invariant ex hex rest _ _ merged old' (hacc' ident p) h
      | none =>
        rw [show mergeLoop ex (ConfigElem.dict e :: rest) acc old =
            mergeLoop ex rest (assocInsert ident (mergeDevice ex ident p) acc) old by
          simp [mergeLoop, hv, hd]] at h
        exact mergeLoop_ok_invariant ex hex rest _ _ merged old' (hacc' ident p) h

lemma mergeLoop_error_invariant (ex : List (String × BluetoothDevice)) :
    ∀ (entries : List ConfigElem) (acc old mtd : List (String × BluetoothDevice)),
      (∀ q ∈ old, deviceInvariant q.2) →
      mergeLoop ex entries acc old = .error mtd →
      ∀ q ∈ mtd, deviceInvariant q.2
  | [], acc, old, mtd, hold, h => by
    exact Except.noConfusion h
  | .nonDict :: rest, acc, old, mtd, hold, h => by
    injection h with h1
    rw [← h1]
    exact hold
  | .dict e :: rest, acc, old, mtd, hold, h => by
    cases hv : validEntry e with
    | none =>
      rw [show mergeLoop ex (ConfigElem.dict e :: rest) acc old =
          mergeLoop ex rest acc old by simp [mergeLoop, hv]] at h
      exact mergeLoop_error_invariant ex rest acc old mtd hold h
    | some ip =>
      obtain ⟨ident, p⟩ := ip
      cases hd : dictGet ex ident with
      | some d0 =>
        rw [show mergeLoop ex (ConfigElem.dict e :: rest) acc old =
            mergeLoop ex rest (assocInsert ident (mergeDevice ex ident p) acc)
              (applyPortUpdate ident p old) by simp [mergeLoop, hv, hd]] at h
        exact mergeLoop_error_invariant ex rest _ _ mtd
          (applyPortUpdate_invariant hold ident p) h
      | none =>
        rw [show mergeLoop ex (ConfigElem.dict e :: rest) acc old =
            mergeLoop ex rest (assocInsert ident (mergeDevice ex ident p) acc) old by
          simp [mergeLoop, hv, hd]] at h
        exact mergeLoop_error_invariant ex rest _ old mtd hold h

lemma mergeLoop_error_rel (ex : List (String × BluetoothDevice)) :
    ∀ (entries : List ConfigElem) (acc old mtd : List (String × BluetoothDevice)),
      mergeLoop ex entries acc old = .error mtd →
      devicesSameExceptPort old mtd
  | [], acc, old, mtd, h => by
    exact Except.noConfusion h
  | .nonDict :: rest, acc, old, mtd, h => by
    injection h with h1
    rw [← h1]
    exact devicesSameExceptPort_refl old
  | .dict e :: rest, acc, old, mtd, h => by
    cases hv : validEntry e with
    | none =>
      rw [show mergeLoop ex (ConfigElem.dict e :: rest) acc old =
          mergeLoop ex rest acc old by simp [mergeLoop, hv]] at h
      exact mergeLoop_error_rel ex rest acc old mtd h
    | some ip =>
      obtain ⟨ident, p⟩ := ip
      cases hd : dictGet ex ident with
      | some d0 =>
        rw [show mergeLoop ex (ConfigElem.dict e :: rest) acc old =
            mergeLoop ex rest (assocInsert ident (mergeDevice ex ident p) acc)
              (applyPortUpdate ident p old) by simp [mergeLoop, hv, hd]] at h
        exact devicesSameExceptPort_trans old (applyPortUpdate ident p old) mtd
          (devicesSameExceptPort_apply ident p old)
          (mergeLoop_error_rel ex rest _ _ mtd h)
      | none =>
        rw [show mergeLoop ex (ConfigElem.dict e :: rest) acc old =
            mergeLoop ex rest (assocInsert ident (mergeDevice ex ident p) acc) old by
          simp [mergeLoop, hv, hd]] at h
        exact mergeLoop_error_rel ex rest _ old mtd h

lemma load_devices_eq (s : LoaderState) (file : ConfigFile) (force : Bool) :
    load_devices s file force =
      match load_devices_body s file force with
      | .ok r => r
      | .error q => (q.1, q.1.values) := rfl

lemma load_devices_body_malformed (s : LoaderState) (m : Nat) (force : Bool) :
    load_devices_body s (.malformed m) force =
      if force = false ∧ m = s.last_modified then .ok (s, s.values)
      else .error (s, "JSONDecodeError") := rfl

lemma load_devices_body_valid (s : LoaderState) (m : Nat) (entries : List ConfigElem)
    (force : Bool) :
    load_devices_body s (.valid m entries) force =
      if force = false ∧ m = s.last_modified then .ok (s, s.values)
      else
        match mergeLoop (buildExisting s.values) entries [] s.devices with
        | .ok (merged, _) =>
          .ok ({ devices := merged, last_modified := m }, merged.map (·.2))
        | .error mutated => .error ({ s with devices := mutated }, "AttributeError") :=
  rfl

lemma load_devices_missing (s : LoaderState) (force : Bool) :
    load_devices s .missing force = (s, s.values) := rfl

lemma load_devices_malformed (s : LoaderState) (m : Nat) (force : Bool) :
    load_devices s (.malformed m) force = (s, s.values) := by
  rw [load_devices_eq, load_devices_body_malformed]
  by_cases hc : force = false ∧ m = s.last_modified
  · rw [if_pos hc]
  · rw [if_neg hc]

lemma load_devices_valid_cached (s : LoaderState) (m : Nat) (entries : List ConfigElem)
    (force : Bool) (hc : force = false ∧ m = s.last_modified) :
    load_devices s (.valid m entries) force = (s, s.values) := by
  rw [load_devices_eq, load_devices_body_valid, if_pos hc]

lemma load_devices_valid_uncached (s : LoaderState) (m : Nat)
    (entries : List ConfigElem) (force : Bool)
    (hc : ¬(force = false ∧ m = s.last_modified)) :
    load_devices s (.valid m entries) force =
      match mergeLoop (buildExisting s.values) entries [] s.devices with
      | .ok (merged, _) => ({ devices := merged, last_modified := m }, merged.map (·.2))
      | .error mutated =>
        ({ s with devices := mutated },
         ({ s with devices := mutated } : LoaderState).values) := by
  rw [load_devices_eq, load_devices_body_valid, if_neg hc]
  cases hm : mergeLoop (buildExisting s.values) entries [] s.devices with
  | ok r =>
    obtain ⟨merged, old'⟩ := r
    rfl
  | error mtd => rfl

lemma load_devices_valid_reload (s : LoaderState) (m : Nat) (entries : List DeviceEntry)
    (force : Bool) (hc : ¬(force = false ∧ m = s.last_modified)) :
    load_devices s (.valid m (entries.map ConfigElem.dict)) force =
      ({ devices := mergeEntries (buildExisting s.values) entries [], last_modified := m },
       (mergeEntries (buildExisting s.values) entries []).map (·.2)) := by
  obtain ⟨old', hok⟩ := mergeLoop_dict_ok (buildExisting s.values) entries [] s.devices
  rw [load_devices_valid_uncached s m (entries.map ConfigElem.dict) force hc, hok]

lemma load_devices_invariant (s : LoaderState) (file : ConfigFile) (force : Bool)
    (hinv : ∀ q ∈ s.devices, deviceInvariant q.2) :
    (∀ q ∈ (load_devices s file force).1.devices, deviceInvariant q.2) ∧
    (∀ d ∈ (load_devices s file force).2, deviceInvariant d) := by
  have hvals : ∀ d ∈ s.values, deviceInvariant d := by
    intro d hd
    rw [LoaderState.values] at hd
    obtain ⟨q, hq, rfl⟩ := List.mem_map.mp hd
    exact hinv q hq
  have hex : ∀ q ∈ buildExisting s.values, deviceInvariant q.2 := by
    intro q hq
    exact hvals q.2 (mem_buildExisting hq)
  have hfromdict : ∀ (l : List (String × BluetoothDevice)),
      (∀ q ∈ l, deviceInvariant q.2) → ∀ d ∈ l.map (·.2), deviceInvariant d := by
    intro l hl d hd
    obtain ⟨q, hq, rfl⟩ := List.mem_map.mp hd
    exact hl q hq
  cases file with
  | missing =>
    rw [load_devices_missing]
    exact ⟨hinv, hvals⟩
  | malformed m =>
    rw [load_devices_malformed]
    exact ⟨hinv, hvals⟩
  | valid m entries =>
    by_cases hc : force = false ∧ m = s.last_modified
    · rw [load_devices_valid_cached s m entries force hc]
      exact ⟨hinv, hvals⟩
    · rw [load_devices_valid_uncached s m entries force hc]
      cases hm : mergeLoop (buildExisting s.values) entries [] s.devices with
      | ok r =>
        obtain ⟨merged, old'⟩ := r
        have hmerged := mergeLoop_ok_invariant (buildExisting s.values) hex entries []
          s.devices merged old' (by intro q hq; simp at hq) hm
        exact ⟨hmerged, hfromdict merged hmerged⟩
      | error mtd =>
        have hmut := mergeLoop_error_invariant (buildExisting s.values) entries []
          s.devices mtd hinv hm
        exact ⟨hmut, hfromdict mtd hmut⟩

/-! ## Concrete objects used by witness instantiations -/

/-- A concrete online device with no failures. -/
def devA : BluetoothDevice :=
  { device_identifier := "A", port := "P1", is_online := true,
    last_seen := some 3, consecutive_failures := 0 }

/-- A concrete loader state holding `devA`. -/
def loaderState0 : LoaderState := { devices := [("A", devA)], last_modified := 1 }

/-- Concrete config entries: `A` re-declared on a new port, a fresh `B`, and
an invalid entry with an empty identifier. -/
def entries0 : List DeviceEntry :=
  [⟨some "A", some "P2"⟩, ⟨some "B", some "P3"⟩, ⟨some "", some "P4"⟩]

/-! ## Claim theorems -/

/-- C1: the invariant `isOnline == true ⇒ consecutiveFailures == 0` is
preserved by `mark_online`, `mark_offline` and registry reload
(`load_devices`); `mark_offline` increments `consecutiveFailures`;
`mark_online` resets it to 0 and sets `lastSeen` to the current time. -/
theorem c1_device_state_invariant :
    (∀ (d : BluetoothDevice) (now : Nat), (d.mark_online now).is_online = true ∧
      (d.mark_online now).consecutive_failures = 0 ∧
      (d.mark_online now).last_seen = some now) ∧
    (∀ d : BluetoothDevice, d.mark_offline.is_online = false ∧
      d.mark_offline.consecutive_failures = d.consecutive_failures + 1) ∧
    (∀ (d : BluetoothDevice) (now : Nat), deviceInvariant (d.mark_online now)) ∧
    (∀ d : BluetoothDevice, deviceInvariant d.mark_offline) ∧
    (∀ (s : LoaderState) (file : ConfigFile) (force : Bool),
      (∀ q ∈ s.devices, deviceInvariant q.2) →
      (∀ q ∈ (load_devices s file force).1.devices, deviceInvariant q.2) ∧
      (∀ d ∈ (load_devices s file force).2, deviceInvariant d)) := by
  refine ⟨fun d now => ⟨rfl, rfl, rfl⟩, fun d => ⟨rfl, rfl⟩, ?_, ?_, ?_⟩
  · intro d now _
    rfl
  · intro d h
    exact absurd h (by simp [BluetoothDevice.mark_offline])
  · intro s file force hinv
    exact load_devices_invariant s file force hinv

/-- Witness for C1: the theorem applied at `loaderState0` with a forced
reload of `entries0`; the fresh device `B` satisfies the invariant. -/
theorem c1_device_state_invariant_witness :
    deviceInvariant (devA.mark_online 5) ∧ deviceInvariant devA.mark_offline ∧
    deviceInvariant ({ device_identifier := "B", port := "P3" } : BluetoothDevice) :=
  ⟨c1_device_state_invariant.2.2.1 devA 5,
   c1_device_state_invariant.2.2.2.1 devA,
   (c1_device_state_invariant.2.2.2.2 loaderState0
      (.valid 2 (entries0.map ConfigElem.dict)) true (by decide)).1
     ("B", { device_identifier := "B", port := "P3" }) (by decide)⟩

/-- C4: a reload from a changed or force-reloaded valid source (a `devices`
array of object entries) keeps each identifier present before and after with
its runtime state (`is_online`, `last_seen`, `consecutive_failures`)
unchanged and only `port` updated from the new source; identifiers without a
valid entry in the new source (including those whose entries have a missing
or empty identifier or port) are absent from the reloaded set. -/
theorem c4_reload_merge_frame (s : LoaderState) (m : Nat) (entries : List DeviceEntry)
    (force : Bool) (hwf : s.wf) (hrel : force = true ∨ m ≠ s.last_modified) :
    (∀ k d p, dictGet s.devices k = some d → findLastValid k entries = some p →
      dictGet (load_devices s (.valid m (entries.map ConfigElem.dict)) force).1.devices k =
        some { d with port := p }) ∧
    (∀ k d p, dictGet s.devices k = some d → findLastValid k entries = some p →
      ∃ d', dictGet (load_devices s
          (.valid m (entries.map ConfigElem.dict)) force).1.devices k = some d' ∧
        d'.is_online = d.is_online ∧ d'.last_seen = d.last_seen ∧
        d'.consecutive_failures = d.consecutive_failures ∧ d'.port = p ∧
        d'.device_identifier = d.device_identifier) ∧
    (∀ k, (∀ e ∈ entries, ∀ i p, validEntry e = some (i, p) → i ≠ k) →
      dictGet (load_devices s
        (.valid m (entries.map ConfigElem.dict)) force).1.devices k = none) := by
  have hc : ¬(force = false ∧ m = s.last_modified) := by
    rcases hrel with h | h
    · subst h
      rintro ⟨h1, _⟩
      exact absurd h1 (by decide)
    · rintro ⟨_, h2⟩
      exact h h2
  have hmain : ∀ k d p, dictGet s.devices k = some d → findLastValid k entries = some p →
      dictGet (load_devices s (.valid m (entries.map ConfigElem.dict)) force).1.devices k =
        some { d with port := p } := by
    intro k d p hd hp
    rw [load_devices_valid_reload s m entries force hc]
    show dictGet (mergeEntries (buildExisting s.values) entries []) k = _
    rw [mergeEntries_get, hp]
    show some (mergeDevice (buildExisting s.values) k p) = _
    unfold mergeDevice
    rw [wf_existing_get hwf, hd]
  refine ⟨hmain, ?_, ?_⟩
  · intro k d p hd hp
    exact ⟨{ d with port := p }, hmain k d p hd hp, rfl, rfl, rfl, rfl, rfl⟩
  · intro k hk
    rw [load_devices_valid_reload s m entries force hc]
    show dictGet (mergeEntries (buildExisting s.values) entries []) k = none
    rw [mergeEntries_get, (findLastValid_eq_none_iff k entries).mpr hk]
    rfl

/-- Witness for C4: reloading `loaderState0` from `entries0` keeps `devA`'s
runtime state with the port updated to `P2`, and an identifier without a
valid entry is absent. -/
theorem c4_reload_merge_frame_witness :
    dictGet (load_devices loaderState0
      (.valid 2 (entries0.map ConfigElem.dict)) true).1.devices "A" =
      some { devA with port := "P2" } ∧
    dictGet (load_devices loaderState0
      (.valid 2 (entries0.map ConfigElem.dict)) true).1.devices "Z" = none :=
  ⟨(c4_reload_merge_frame loaderState0 2 entries0 true (by decide) (Or.inl rfl)).1
      "A" devA "P2" (by decide) (by decide),
   (c4_reload_merge_frame loaderState0 2 entries0 true (by decide) (Or.inl rfl)).2.2
      "Z" (findLastValid_none_sound (by decide))⟩

/-- C7 (amended): `load_devices` never lets an exception escape.  A missing
config file and a JSON parse failure return the last known-good cached set
unchanged; every other error of the reload body is also caught and answered
with the cached dict's values — but because `device.port = port` mutates the
cached objects in place before `new_devices` is committed, a merge-loop error
(a non-dict `devices` element raising `AttributeError`) returns the cached
set with the ports of already-processed identifiers updated: membership,
order, identifiers, runtime state and the stored mtime are unchanged, only
ports may differ. -/
theorem c7_load_devices_never_raises (s : LoaderState) (force : Bool) :
    load_devices s .missing force = (s, s.values) ∧
    (∀ m, load_devices s (.malformed m) force = (s, s.values)) ∧
    (∀ file s' e, load_devices_body s file force = .error (s', e) →
      load_devices s file force = (s', s'.values)) ∧
    (∀ m entries s' e,
      load_devices_body s (.valid m entries) force = .error (s', e) →
      s'.last_modified = s.last_modified ∧
      devicesSameExceptPort s.devices s'.devices) := by
  refine ⟨load_devices_missing s force, fun m => load_devices_malformed s m force,
    ?_, ?_⟩
  · intro file s' e herr
    rw [load_devices_eq, herr]
  · intro m entries s' e herr
    rw [load_devices_body_valid] at herr
    by_cases hc : force = false ∧ m = s.last_modified
    · rw [if_pos hc] at herr
      exact Except.noConfusion herr
    · rw [if_neg hc] at herr
      cases hm : mergeLoop (buildExisting s.values) entries [] s.devices with
      | ok r =>
        obtain ⟨merged, old'⟩ := r
        rw [hm] at herr
        exact Except.noConfusion herr
      | error mtd =>
        rw [hm] at herr
        injection herr with h1
        have h2 : ({ s with devices := mtd } : LoaderState) = s' :=
          congrArg Prod.fst h1
        rw [← h2]
        exact ⟨rfl, mergeLoop_error_rel (buildExisting s.values) entries [] s.devices
          mtd hm⟩

/-- Counterexample to C7 as stated: reloading `loaderState0` from a source
whose `devices` array holds a valid re-declaration of `A` (port `NEW`)
followed by a non-dict element raises `AttributeError` mid-merge, after the
in-place `device.port = port` mutation of the cached, aliased `devA`; the
caught error therefore returns the cached set with `A`'s port already changed
to `NEW` — not the unchanged last known-good set (note `last_modified` stays
1, showing the reload never committed). -/
theorem c7_load_devices_never_raises_counterexample :
    load_devices_body loaderState0
        (.valid 9 [.dict ⟨some "A", some "NEW"⟩, .nonDict]) true =
      .error ({ devices := [("A", { devA with port := "NEW" })], last_modified := 1 },
        "AttributeError") ∧
    load_devices loaderState0
        (.valid 9 [.dict ⟨some "A", some "NEW"⟩, .nonDict]) true =
      ({ devices := [("A", { devA with port := "NEW" })], last_modified := 1 },
       [{ devA with port := "NEW" }]) ∧
    ({ devices := [("A", { devA with port := "NEW" })], last_modified := 1 }
        : LoaderState) ≠ loaderState0 ∧
    [{ devA with port := "NEW" }] ≠ loaderState0.values :=
  ⟨rfl, rfl, by decide, by decide⟩

/-- Witness for C7: the theorem applied to a malformed file (cached set
returned unchanged) and to the mid-merge `AttributeError` error state. -/
theorem c7_load_devices_never_raises_witness :
    load_devices loaderState0 (.malformed 5) true = (loaderState0, loaderState0.values) ∧
    load_devices loaderState0
        (.valid 9 [.dict ⟨some "A", some "NEW"⟩, .nonDict]) true =
      ({ devices := [("A", { devA with port := "NEW" })], last_modified := 1 },
       ({ devices := [("A", { devA with port := "NEW" })], last_modified := 1 }
         : LoaderState).values) :=
  ⟨(c7_load_devices_never_raises loaderState0 true).2.1 5,
   (c7_load_devices_never_raises loaderState0 true).2.2.1
     (.valid 9 [.dict ⟨some "A", some "NEW"⟩, .nonDict])
     { devices := [("A", { devA with port := "NEW" })], last_modified := 1 }
     "AttributeError" rfl⟩

/-- The device of the spec scenario: `SENSOR-001` on port `COM4`, currently
online with no failures. -/
def sensor001 : BluetoothDevice :=
  { device_identifier := "SENSOR-001", port := "COM4", is_online := true,
    last_seen := some 0, consecutive_failures := 0 }

/-- C2: with the identity record resolving, one poll emits exactly one status
event when its outcome flips the device state (offline→online on a successful
poll of an offline device, online→offline on a failed poll of an online
device) and zero events when the observed state repeats; a reading whose
processing fails emits nothing.  Scenario: `SENSOR-001` failing ping on 3
consecutive cycles ends with `consecutive_failures = 3`, offline, and exactly
one offline event, emitted on the first failing cycle only. -/
theorem c2_edge_transition_events :
    (∀ (d : BluetoothDevice) (now : Nat),
      (poll_step true now d .success).2.length = (if d.is_online then 0 else 1) ∧
      (poll_step true now d .failure).2.length = (if d.is_online then 1 else 0) ∧
      (poll_step true now d .processFailed).2 = []) ∧
    run_polls true 7 sensor001 [.failure, .failure, .failure] =
      ({ device_identifier := "SENSOR-001", port := "COM4", is_online := false,
         last_seen := some 0, consecutive_failures := 3 },
       [.offline "SENSOR-001" 1]) ∧
    (poll_step true 7 sensor001 .failure).2 = [.offline "SENSOR-001" 1] ∧
    (run_polls true 7 (poll_step true 7 sensor001 .failure).1 [.failure, .failure]).2 =
      [] := by
  refine ⟨?_, by decide, by decide, by decide⟩
  intro d now
  refine ⟨?_, ?_, rfl⟩
  · cases hon : d.is_online <;> simp [poll_step, handle_device_online, hon]
  · cases hon : d.is_online <;> simp [poll_step, handle_device_offline, hon]

/-- Helper: the last level of a split pattern is a member of it. -/
lemma getLastQ_mem {l : List String} {a : String} (h : l.getLast? = some a) : a ∈ l := by
  have hx : a ∈ l.getLast? := by rw [h]; rfl
  obtain ⟨hne, hEq⟩ := List.mem_getLast?_eq_getLast hx
  rw [hEq]
  exact List.getLast_mem hne

/-- Zipped level comparison only ever inspects the first `tp.length` pattern
levels. -/
lemma zipAllMatch_take (pp tp : List String) :
    zipAllMatch pp tp = zipAllMatch (pp.take tp.length) tp := by
  induction pp generalizing tp with
  | nil => simp [List.take_nil]
  | cons p ps ih =>
    cases tp with
    | nil => rfl
    | cons t ts => simp [zipAllMatch, List.take, ih]

/-- Source: `find?` skips a prefix on which the predicate is everywhere false. -/
lemma findQ_append_of_forall_false {α : Type} (p : α → Bool) (l₁ l₂ : List α)
    (h : ∀ x ∈ l₁, p x = false) : (l₁ ++ l₂).find? p = l₂.find? p := by
  induction l₁ with
  | nil => rfl
  | cons x rest ih =>
    have hx := h x (List.mem_cons_self _ _)
    simp only [List.cons_append, List.find?_cons, hx]
    exact ih fun y hy => h y (List.mem_cons_of_mem _ hy)

/-- A `#`-free pattern list never takes the hash branch of either matcher. -/
lemma hashFree_matchers_agree (pp tp : List String) (hc : pp.contains "#" = false) :
    topic_matches_core pp tp = spec_topic_matches_core pp tp := by
  have hlast : (pp.getLast? == some "#") = false := by
    cases hl : pp.getLast? with
    | none => rfl
    | some a =>
      by_cases h : a = "#"
      · subst h
        have hmem : pp.contains "#" = true := List.elem_eq_true_of_mem (getLastQ_mem hl)
        rw [hmem] at hc
        cases hc
      · simp [h]
  rw [topic_matches_core, spec_topic_matches_core, hc, hlast]
  simp

/-- C3 (amended): the spec's concrete wildcard examples hold; `+` matches
exactly one level and patterns without `#` follow the spec semantics exactly;
a trailing `#` follows the spec semantics whenever the topic has at least as
many levels as the pattern prefix, but when the topic is shorter the code
compares only the overlapping levels (so such shorter topics also match when
they agree on the overlap); handler lookup is exact-match first, else the
first matching wildcard pattern in registration order. -/
theorem c3_wildcard_matching :
    topic_matches "cm/devices/+" "cm/devices/events" = true ∧
    topic_matches "cm/devices/+" "cm/devices/events/created" = false ∧
    topic_matches "cm/#" "cm/devices/events/created" = true ∧
    (∀ pp tp : List String, pp.contains "#" = false →
      topic_matches_core pp tp = spec_topic_matches_core pp tp) ∧
    (∀ pp tp : List String, pp.contains "#" = false → pp.length ≤ tp.length →
      topic_matches_core (pp ++ ["#"]) tp = spec_topic_matches_core (pp ++ ["#"]) tp) ∧
    (∀ pp tp : List String, pp.contains "#" = false → tp.length < pp.length →
      topic_matches_core (pp ++ ["#"]) tp = levelsAgree (pp.take tp.length) tp) ∧
    (∀ (hs₁ hs₂ : List (String × Nat)) (t : String) (f : Nat),
      (∀ e ∈ hs₁, e.1 ≠ t) →
      find_handler (hs₁ ++ (t, f) :: hs₂) t = some f) ∧
    (∀ (hs₁ hs₂ : List (String × Nat)) (t p : String) (f : Nat),
      (∀ e ∈ hs₁ ++ (p, f) :: hs₂, e.1 ≠ t) →
      (∀ e ∈ hs₁, topic_matches e.1 t = false) →
      topic_matches p t = true →
      find_handler (hs₁ ++ (p, f) :: hs₂) t = some f) := by
  have hash_branch : ∀ pp tp : List String,
      topic_matches_core (pp ++ ["#"]) tp = zipAllMatch pp tp := by
    intro pp tp
    have hcontains : (pp ++ ["#"]).contains "#" = true :=
      List.elem_eq_true_of_mem (by simp)
    have hlast : ((pp ++ ["#"]).getLast? == some "#") = true := by
      rw [List.getLast?_concat]
      rfl
    rw [topic_matches_core, hcontains, hlast]
    simp [List.dropLast_concat]
  refine ⟨by decide, by decide, by decide, hashFree_matchers_agree, ?_, ?_, ?_, ?_⟩
  · intro pp tp _ hlen
    rw [hash_branch]
    rw [spec_topic_matches_core]
    rw [if_pos (by rw [List.getLast?_concat]; rfl)]
    rw [List.dropLast_concat]
    simp [hlen]
  · intro pp tp _ hlen
    rw [hash_branch, zipAllMatch_take, levelsAgree]
    have : (pp.take tp.length).length = tp.length := by
      rw [List.length_take]
      exact Nat.min_eq_left (Nat.le_of_lt hlen)
    simp [this]
  · intro hs₁ hs₂ t f h
    have hnone : dictGet hs₁ t = none := by
      apply dictGet_eq_none_of_not_mem
      intro hmem
      obtain ⟨e, he, hk⟩ := List.mem_map.mp hmem
      exact h e he hk
    rw [find_handler, dictGet_append, hnone]
    simp [dictGet]
  · intro hs₁ hs₂ t p f hne hfalse hmatch
    have hnone : dictGet (hs₁ ++ (p, f) :: hs₂) t = none := by
      apply dictGet_eq_none_of_not_mem
      intro hmem
      obtain ⟨e, he, hk⟩ := List.mem_map.mp hmem
      exact hne e he hk
    rw [find_handler, hnone]
    rw [findQ_append_of_forall_false _ hs₁ _ (fun e he => hfalse e he)]
    simp [List.find?_cons, hmatch]

/-- Counterexample to C3 as stated: the code's matcher accepts pattern
`cm/devices/#` against topic `cm`, although under "a trailing `#` matches any
number of trailing levels" the topic lacks the `devices` prefix level and
must not match. -/
theorem c3_wildcard_matching_counterexample :
    topic_matches "cm/devices/#" "cm" = true ∧
    spec_topic_matches "cm/devices/#" "cm" = false := by
  decide

/-- Witness for C3: exact lookup beats an earlier-registered wildcard
pattern that also matches. -/
theorem c3_wildcard_matching_witness :
    find_handler [("cm/#", 0), ("cm/devices", 1)] "cm/devices" = some 1 :=
  c3_wildcard_matching.2.2.2.2.2.2.1 [("cm/#", 0)] [] "cm/devices" 1 (by decide)

/-- C5: `set_threshold` with a value outside `[0, 100]` returns `False` with
no envelope submitted to the transport; a value inside `[0, 100]` submits the
threshold envelope exactly once and returns `True` iff that write succeeded
(the client is connected and the OS write worked); in particular
`set_threshold 150` writes nothing and `set_threshold 80` makes exactly one
write attempt. -/
theorem c5_set_threshold_validation :
    (∀ (st : SerialState) (t : Int), (t < 0 ∨ 100 < t) → set_threshold st t = (false, [])) ∧
    (∀ (st : SerialState) (t : Int), 0 ≤ t → t ≤ 100 →
      set_threshold st t = ((send_message st (threshold_message t)).1, [threshold_message t]) ∧
      ((set_threshold st t).1 = true ↔ st.is_connected = true ∧ st.write_ok = true)) ∧
    (∀ st : SerialState, set_threshold st 150 = (false, [])) ∧
    (∀ st : SerialState, set_threshold st 80 =
      ((send_message st (threshold_message 80)).1, [threshold_message 80])) := by
  have hin : ∀ (st : SerialState) (t : Int), 0 ≤ t → t ≤ 100 →
      set_threshold st t =
        ((send_message st (threshold_message t)).1, [threshold_message t]) := by
    intro st t h0 h1
    rw [set_threshold, if_pos ⟨h0, h1⟩]
  refine ⟨?_, ?_, ?_, fun st => hin st 80 (by decide) (by decide)⟩
  · intro st t h
    rw [set_threshold, if_neg]
    rintro ⟨h0, h1⟩
    rcases h with h | h
    · exact absurd h0 (not_le.mpr h)
    · exact absurd h1 (not_le.mpr h)
  · intro st t h0 h1
    refine ⟨hin st t h0 h1, ?_⟩
    rw [hin st t h0 h1]
    cases hc : st.is_connected <;> cases hw : st.write_ok <;>
      simp [send_message, hc, hw]
  · intro st
    rw [set_threshold, if_neg (by decide)]

/-- Witness for C5: `set_threshold(150)` rejected without a write,
`set_threshold(80)` one successful write on a connected client, and a
negative value rejected. -/
theorem c5_set_threshold_validation_witness :
    set_threshold ⟨true, true⟩ 150 = (false, []) ∧
    set_threshold ⟨true, true⟩ 80 = (true, [threshold_message 80]) ∧
    set_threshold ⟨false, true⟩ (-1) = (false, []) :=
  ⟨c5_set_threshold_validation.2.2.1 ⟨true, true⟩,
   c5_set_threshold_validation.2.2.2 ⟨true, true⟩,
   c5_set_threshold_validation.1 ⟨false, true⟩ (-1) (Or.inl (by decide))⟩

/-- C6: `publish` returns `False` immediately when the `connected` flag is
down, with no serialization and no `client.publish` call; when connected it
serializes the payload and returns `True` iff the local send call reports
success. -/
theorem c6_publish_connection_gate :
    (∀ (rc : Bool) (topic : String) (payload : List (String × JValue)) (retain : Bool),
      mqtt_publish ⟨false, rc⟩ topic payload retain = (false, [])) ∧
    (∀ (rc : Bool) (topic : String) (payload : List (String × JValue)) (retain : Bool),
      mqtt_publish ⟨true, rc⟩ topic payload retain =
        (rc, [⟨topic, dumpObj payload, retain⟩])) :=
  ⟨fun _ _ _ _ => rfl, fun _ _ _ _ => rfl⟩

/-- C8: the command queue drain consumes the whole FIFO and leaves nothing
behind (nothing is ever re-enqueued); every enqueued command yields exactly
one attempt record; a command whose key resolves to no configured device is
dropped; a resolved command triggers exactly its one send; and in the cycle
trace every command action precedes every device poll. -/
theorem c8_command_queue_drain (repo : String → Option String)
    (sendOk : String → Int → Bool) (devices : List BluetoothDevice)
    (cmds : List (String × Int)) :
    (process_command_queue repo sendOk devices cmds).2 = [] ∧
    (process_command_queue repo sendOk devices cmds).1.length = cmds.length ∧
    (∀ qid t, (qid, t) ∈ cmds → resolve_command repo devices qid = none →
      CmdAction.dropped qid t ∈ (process_command_queue repo sendOk devices cmds).1) ∧
    (∀ qid t d, (qid, t) ∈ cmds → resolve_command repo devices qid = some d →
      CmdAction.sent qid t d.device_identifier (sendOk d.device_identifier t) ∈
        (process_command_queue repo sendOk devices cmds).1) ∧
    (∃ cs ps, (run_cycle repo sendOk devices cmds).1 = cs ++ ps ∧
      (∀ a ∈ cs, ∃ c, a = CycleAction.command c) ∧
      (∀ a ∈ ps, ∃ i, a = CycleAction.polled i) ∧
      cs.length = cmds.length ∧ ps.length = devices.length) ∧
    (run_cycle repo sendOk devices cmds).2 = [] := by
  have hrem : ∀ cs : List (String × Int),
      (process_command_queue repo sendOk devices cs).2 = [] := by
    intro cs
    induction cs with
    | nil => rfl
    | cons c rest ih =>
      obtain ⟨qid, t⟩ := c
      simp only [process_command_queue]
      exact ih
  have hlen : ∀ cs : List (String × Int),
      (process_command_queue repo sendOk devices cs).1.length = cs.length := by
    intro cs
    induction cs with
    | nil => rfl
    | cons c rest ih =>
      obtain ⟨qid, t⟩ := c
      simp only [process_command_queue, List.length_cons]
      rw [ih]
  have hdrop : ∀ (cs : List (String × Int)) (qid : String) (t : Int),
      (qid, t) ∈ cs → resolve_command repo devices qid = none →
      CmdAction.dropped qid t ∈ (process_command_queue repo sendOk devices cs).1 := by
    intro cs
    induction cs with
    | nil => intro qid t h; simp at h
    | cons c rest ih =>
      obtain ⟨q0, t0⟩ := c
      intro qid t hmem hres
      rcases List.mem_cons.mp hmem with heq | hmem'
      · obtain ⟨h1, h2⟩ := Prod.mk.injEq .. ▸ heq
        subst h1
        subst h2
        simp only [process_command_queue, hres]
        exact List.mem_cons_self _ _
      · simp only [process_command_queue]
        exact List.mem_cons_of_mem _ (ih qid t hmem' hres)
  have hsent : ∀ (cs : List (String × Int)) (qid : String) (t : Int)
      (d : BluetoothDevice),
      (qid, t) ∈ cs → resolve_command repo devices qid = some d →
      CmdAction.sent qid t d.device_identifier (sendOk d.device_identifier t) ∈
        (process_command_queue repo sendOk devices cs).1 := by
    intro cs
    induction cs with
    | nil => intro qid t d h; simp at h
    | cons c rest ih =>
      obtain ⟨q0, t0⟩ := c
      intro qid t d hmem hres
      rcases List.mem_cons.mp hmem with heq | hmem'
      · obtain ⟨h1, h2⟩ := Prod.mk.injEq .. ▸ heq
        subst h1
        subst h2
        simp only [process_command_queue, hres]
        exact List.mem_cons_self _ _
      · simp only [process_command_queue]
        exact List.mem_cons_of_mem _ (ih qid t d hmem' hres)
  refine ⟨hrem cmds, hlen cmds, hdrop cmds, hsent cmds, ?_, hrem cmds⟩
  refine ⟨(process_command_queue repo sendOk devices cmds).1.map CycleAction.command,
    devices.map (fun d => CycleAction.polled d.device_identifier), ?_, ?_, ?_, ?_, ?_⟩
  · rfl
  · intro a ha
    obtain ⟨c, _, rfl⟩ := List.mem_map.mp ha
    exact ⟨c, rfl⟩
  · intro a ha
    obtain ⟨d, _, rfl⟩ := List.mem_map.mp ha
    exact ⟨d.device_identifier, rfl⟩
  · rw [List.length_map, hlen cmds]
  · rw [List.length_map]

/-- Witness for C8: a queue holding one unresolvable and one resolvable
command against the device list `[sensor001]`. -/
theorem c8_command_queue_drain_witness :
    (process_command_queue (fun _ => none) (fun _ _ => true) [sensor001]
      [("NOPE", 50), ("SENSOR-001", 70)]).2 = [] ∧
    CmdAction.dropped "NOPE" 50 ∈ (process_command_queue (fun _ => none) (fun _ _ => true)
      [sensor001] [("NOPE", 50), ("SENSOR-001", 70)]).1 ∧
    CmdAction.sent "SENSOR-001" 70 "SENSOR-001" true ∈
      (process_command_queue (fun _ => none) (fun _ _ => true)
        [sensor001] [("NOPE", 50), ("SENSOR-001", 70)]).1 :=
  ⟨(c8_command_queue_drain (fun _ => none) (fun _ _ => true) [sensor001]
      [("NOPE", 50), ("SENSOR-001", 70)]).1,
   (c8_command_queue_drain (fun _ => none) (fun _ _ => true) [sensor001]
      [("NOPE", 50), ("SENSOR-001", 70)]).2.2.1 "NOPE" 50 (by decide) (by decide),
   (c8_command_queue_drain (fun _ => none) (fun _ _ => true) [sensor001]
      [("NOPE", 50), ("SENSOR-001", 70)]).2.2.2.1 "SENSOR-001" 70 sensor001
      (by decide) (by decide)⟩

/-- C9: the direct `SerialClient.send_message` path writes the JSON envelope
followed by a trailing newline, but the pooled `SerialClientAdapter._send_raw`
path writes the bare `json.dumps(message)` bytes with no trailing newline —
the adapter path violates the newline-delimited envelope format. -/
theorem c9_serial_newline_divergence :
    (∀ (st : SerialState) (m : Envelope), st.is_connected = true →
      (send_message st m).2 = [jsonDumpsEnvelope m ++ "\n"]) ∧
    (∀ m : Envelope, adapter_send_raw_bytes m = [jsonDumpsEnvelope m]) ∧
    adapter_send_raw_bytes (threshold_message 80) =
      ["\x7b\"topic\": \"config/threshold\", \"data\": \x7b\"value\": 80\x7d\x7d"] ∧
    adapter_send_raw_bytes (threshold_message 80) ≠
      [jsonDumpsEnvelope (threshold_message 80) ++ "\n"] := by
  refine ⟨?_, fun m => rfl, by decide, by decide⟩
  intro st m hc
  simp [send_message, hc]

/-- Witness for C9: the direct path's bytes on a concrete connected client. -/
theorem c9_serial_newline_divergence_witness :
    (send_message ⟨true, true⟩ (threshold_message 80)).2 =
      [jsonDumpsEnvelope (threshold_message 80) ++ "\n"] :=
  c9_serial_newline_divergence.1 ⟨true, true⟩ (threshold_message 80) rfl

lemma conn_step_latch (s : ConnState) (e : ConnEvent) (hr : s.reconnecting = true)
    (hne : e ≠ ConnEvent.onConnect 0) :
    (conn_step s e).1.reconnecting = true ∧ (conn_step s e).2 = false := by
  cases e with
  | connectCall r =>
    cases r <;> simp [conn_step, connect_call, schedule_reconnect, hr]
  | onConnect rc =>
    by_cases h0 : rc = 0
    · subst h0
      exact absurd rfl hne
    · simp [conn_step, on_connect, h0, schedule_reconnect, hr]
  | onDisconnect rc =>
    by_cases h0 : rc = 0
    · subst h0
      simp [conn_step, on_disconnect, hr]
    · simp [conn_step, on_disconnect, h0, schedule_reconnect, hr]
  | timerFires r =>
    cases hcon : s.connected <;> cases r <;>
      simp [conn_step, reconnect_timer, connect_call, schedule_reconnect, hr, hcon]

lemma conn_run_no_schedule :
    ∀ (evs : List ConnEvent) (s : ConnState), s.reconnecting = true →
      (∀ e ∈ evs, e ≠ ConnEvent.onConnect 0) →
      (conn_run s evs).2 = 0 ∧ (conn_run s evs).1.reconnecting = true
  | [], _, hr, _ => ⟨rfl, hr⟩
  | e :: rest, s, hr, hno => by
    have hne := hno e (List.mem_cons_self _ _)
    have hstep := conn_step_latch s e hr hne
    have hrest := conn_run_no_schedule rest (conn_step s e).1 hstep.1
      (fun x hx => hno x (List.mem_cons_of_mem _ hx))
    simp only [conn_run]
    rw [hstep.2, hrest.1]
    exact ⟨rfl, hrest.2⟩

/-- C10: `reconnecting` is set exactly when a reconnect gets scheduled and is
cleared only by a successful `_on_connect` (`rc == 0`); the reconnect timer
never clears it, so once the flag is up and the scheduled attempt's
`connect()` raises, every later event — including every further call into the
scheduler — schedules nothing and the flag stays up until a connection
succeeds. -/
theorem c10_reconnect_flag_latch :
    (∀ s : ConnState, s.reconnecting = false →
      schedule_reconnect s = ({ s with reconnecting := true }, true)) ∧
    (∀ (s : ConnState) (e : ConnEvent), s.reconnecting = true →
      ((conn_step s e).1.reconnecting = false ↔ e = .onConnect 0)) ∧
    (∀ (s : ConnState) (e : ConnEvent), s.reconnecting = true → e ≠ .onConnect 0 →
      (conn_step s e).1.reconnecting = true ∧ (conn_step s e).2 = false) ∧
    (∀ s : ConnState, s.reconnecting = true → reconnect_timer true s = (s, false)) ∧
    (∀ (s : ConnState) (evs : List ConnEvent), s.reconnecting = true →
      (∀ e ∈ evs, e ≠ .onConnect 0) →
      (conn_run s evs).2 = 0 ∧ (conn_run s evs).1.reconnecting = true) := by
  refine ⟨?_, ?_, conn_step_latch, ?_, fun s evs hr hno => conn_run_no_schedule evs s hr hno⟩
  · intro s hr
    rw [schedule_reconnect, if_neg]
    rw [hr]
    exact Bool.false_ne_true
  · intro s e hr
    constructor
    · intro h
      by_contra hne
      have := (conn_step_latch s e hr hne).1
      rw [this] at h
      cases h
    · rintro rfl
      simp [conn_step, on_connect]
  · intro s hr
    cases hcon : s.connected <;>
      simp [reconnect_timer, connect_call, schedule_reconnect, hr, hcon]

/-- Witness for C10: from a disconnected state with the flag up, a failing
scheduled attempt, a failing direct connect, an unexpected disconnect and a
refused connection schedule nothing further and leave the flag up. -/
theorem c10_reconnect_flag_latch_witness :
    (conn_run ⟨false, true⟩
      [.timerFires true, .connectCall true, .onDisconnect 1, .onConnect 3]).2 = 0 ∧
    (conn_run ⟨false, true⟩
      [.timerFires true, .connectCall true, .onDisconnect 1,
        .onConnect 3]).1.reconnecting = true :=
  c10_reconnect_flag_latch.2.2.2.2 ⟨false, true⟩
    [.timerFires true, .connectCall true, .onDisconnect 1, .onConnect 3]
    rfl (by decide)

end WasteTrackEdge
